import Mathlib

/-!
Shallow embedding of `src/renderer/src/app.rs` from the freya renderer:
the application lifecycle core (`winit_waker`, `App::new`,
`App::provide_vdom_contexts`, `App::init_vdom`, `App::apply_vdom_changes`,
`App::poll_vdom`, `App::request_rerender`).

The dioxus VirtualDom and RealDom (`vdom.rebuild`, `vdom.render_immediate`,
`rdom.apply_mutations`, `rdom.update_state`) are external collaborators of
this module; they are modelled as an abstract `Externals` record, constrained
only where a theorem needs their documented contract as a hypothesis.
Stateful code is embedded as explicit state passing, and side effects are
additionally recorded in an ordered trace of `TraceEv` events so that
ordering properties of the scheduler loop can be stated.
-/

namespace Freya

/-- An abstract dioxus mutation; its payload is opaque to `app.rs`, which only
forwards whole batches to `apply_mutations`. -/
abbrev Mutation := Nat

/-- An abstract node id of the real DOM. -/
abbrev NodeId := Nat

/-- The `EventMessage` variants of `freya_common` that `app.rs` sends through
the winit event-loop proxy. -/
inductive EventMessage where
  | PollVDOM
  | RequestRerender
  deriving DecidableEq, Repr

/-- The winit `EventLoopProxy` channel, seen from the sender side: whether the
event loop is gone, and the messages delivered so far. -/
structure Proxy where
  closed : Bool
  sent : List EventMessage
  deriving DecidableEq, Repr

/-- `EventLoopProxy::send_event`: delivers the message when the event loop is
still alive; the returned `Bool` is the success of delivery (`Err` on a closed
loop). -/
def send_event (p : Proxy) (m : EventMessage) : Proxy × Bool :=
  if p.closed then (p, false) else ({ p with sent := p.sent ++ [m] }, true)

/-- The `wake_by_ref` body of the waker built by `winit_waker` (app.rs:36-38):
send `EventMessage::PollVDOM` and discard the delivery result
(`_ = arc_self.0.send_event(...)`). It is a total function: the failed send is
swallowed, never surfaced. -/
def wake_by_ref (p : Proxy) : Proxy :=
  (send_event p EventMessage.PollVDOM).1

/-- `App::request_rerender` (app.rs:208-212): send `RequestRerender` and
`unwrap()` the result; `none` models the panic when the channel is closed. -/
def request_rerender (p : Proxy) : Option Proxy :=
  let r := send_event p EventMessage.RequestRerender
  if r.2 then some r.1 else none

/-- The external dioxus collaborators, abstracted: what
`rdom.apply_mutations` returns for a mutation batch (the nodes to update and
the diff), and whether the `update_state` pass over a node set finds a
layout-relevant change (in which case it sets the shared layout notifier). -/
structure Externals where
  applyMutations : List Mutation → List NodeId × List NodeId
  layoutRelevant : List NodeId → Bool

/-- Modelled from the spec: `Layers::default()` of the `freya_layout` crate is
not under `src/`; per the spec, Layers is "an ordered grouping of node ids by
paint order", and its default is the empty grouping. -/
def defaultLayers : List NodeId := []

/-- The state of an `App` (app.rs:45-64), restricted to the fields the claims
are about. `mutations_sender` records whether the optional sender is `Some`,
and `sent_mut_signals` counts the `()` signals sent on it. The
`layout_notifier` (`Arc<Mutex<bool>>` in the source) is a plain `Bool`, since
the scheduler is single-threaded. -/
structure AppState where
  events : List Nat
  layers : List NodeId
  viewports_collection : List (NodeId × Nat)
  layout_notifier : Bool
  mutations_sender : Bool
  sent_mut_signals : Nat
  proxy : Proxy
  deriving DecidableEq, Repr

/-- `App::new` (app.rs:67-90): fresh state with an empty events queue
(`Vec::new()`), default Layers, default (empty) viewports collection, and the
layout notifier initialised to `false`. -/
def App.new (mutations_sender : Bool) (proxy : Proxy) : AppState :=
  { events := []
    layers := defaultLayers
    viewports_collection := []
    layout_notifier := false
    mutations_sender := mutations_sender
    sent_mut_signals := 0
    proxy := proxy }

/-- Ordered side-effect events of the scheduler, recorded by the embedding of
`init_vdom`, `apply_vdom_changes` and `poll_vdom`. -/
inductive TraceEv where
  | provideStateCtx
  | provideProxyCtx
  | pollEngine
  | handleEvent
  | sendMutSignal
  | setFlagFalse
  | updateState
  | requestRedraw
  | requestRerender
  | suspend
  deriving DecidableEq, Repr

/-- `App::provide_vdom_contexts` (app.rs:93-98): provide the configured launch
state (when `window_config.state` is `Some`), then the event-loop proxy, to
the VirtualDom base scope. Only the trace matters: the contexts are not
retained by the embedding, mirroring the engine's no-retained-context
contract. -/
def provide_vdom_contexts (hasState : Bool) : List TraceEv :=
  (if hasState then [TraceEv.provideStateCtx] else []) ++ [TraceEv.provideProxyCtx]

/-- `App::apply_vdom_changes` (app.rs:120-136), with `muts` standing for what
`vdom.render_immediate()` produced this call. Returns the
`(changed, relayout)` pair of the source, the successor state, and the trace
of side effects in program order: the optional mutation signal, the reset of
the layout notifier to `false`, then the `update_state` pass (which may set
the notifier). -/
def apply_vdom_changes (ext : Externals) (muts : List Mutation) (s : AppState) :
    (Bool × Bool) × AppState × List TraceEv :=
  let r := ext.applyMutations muts
  let sig : AppState × List TraceEv :=
    if !r.2.isEmpty then
      if s.mutations_sender then
        ({ s with sent_mut_signals := s.sent_mut_signals + 1 }, [TraceEv.sendMutSignal])
      else (s, [])
    else (s, [])
  let s2 := { sig.1 with layout_notifier := false }
  let s3 := { s2 with layout_notifier := s2.layout_notifier || ext.layoutRelevant r.1 }
  ((!r.2.isEmpty, s3.layout_notifier), s3, sig.2 ++ [TraceEv.setFlagFalse, TraceEv.updateState])

/-- `App::init_vdom` (app.rs:101-117), with `muts` standing for what
`vdom.rebuild()` produced: provide the contexts, apply the rebuild mutations,
signal the mutation sender on a non-empty diff, reset the layout notifier,
and run the `update_state` pass. -/
def init_vdom (ext : Externals) (hasState : Bool) (muts : List Mutation) (s : AppState) :
    AppState × List TraceEv :=
  let r := ext.applyMutations muts
  let sig : AppState × List TraceEv :=
    if !r.2.isEmpty then
      if s.mutations_sender then
        ({ s with sent_mut_signals := s.sent_mut_signals + 1 }, [TraceEv.sendMutSignal])
      else (s, [])
    else (s, [])
  let s2 := { sig.1 with layout_notifier := false }
  let s3 := { s2 with layout_notifier := s2.layout_notifier || ext.layoutRelevant r.1 }
  (s3, provide_vdom_contexts hasState ++ sig.2 ++ [TraceEv.setFlagFalse, TraceEv.updateState])

/-- The two render requests an iteration of `poll_vdom` can make, or none. -/
inductive RenderRequest where
  | redraw
  | rerender
  | noop
  deriving DecidableEq, Repr

/-- The redraw/repaint decision at the end of a `poll_vdom` iteration
(app.rs:170-174), exactly as written in the source:
`if must_relayout || must_repaint { redraw } else if must_repaint { rerender }`. -/
def poll_render_decision (must_repaint must_relayout : Bool) : RenderRequest :=
  if must_relayout || must_repaint then RenderRequest.redraw
  else if must_repaint then RenderRequest.rerender
  else RenderRequest.noop

/-- The trace of the decision step. -/
def decisionTrace (must_repaint must_relayout : Bool) : List TraceEv :=
  match poll_render_decision must_repaint must_relayout with
  | RenderRequest.redraw => [TraceEv.requestRedraw]
  | RenderRequest.rerender => [TraceEv.requestRerender]
  | RenderRequest.noop => []

/-- One outcome of polling the `select!` future (app.rs:147-165): either the
race is `Pending`, or it completed — with an addressed UI event received from
`event_receiver` (`some`), or without one (`wait_for_work` won the race, or
the receiver returned `None`) — together with the mutations
`render_immediate` then hands back. -/
inductive PollStep where
  | pending
  | ready (ev : Option Nat) (muts : List Mutation)
  deriving DecidableEq, Repr

/-- Whether a `PollStep` completed. -/
def isReadyStep : PollStep → Bool
  | PollStep.pending => false
  | PollStep.ready _ _ => true

/-- The trace of the event-dispatch arm of the `select!` (app.rs:149-156):
when an addressed UI event was received, it is handed to `vdom.handle_event`
and `vdom.process_events` runs; otherwise nothing happens in that arm. -/
def evTrace : Option Nat → List TraceEv
  | some _ => [TraceEv.handleEvent]
  | none => []

/-- `App::poll_vdom` (app.rs:139-176): the scheduler loop, driven by a script
giving each iteration's poll outcome. Each iteration re-provides the contexts,
polls the `select!` future, and on `Ready` handles the received event (if
any), applies the VirtualDom changes and makes the render decision before
looping; on `Pending` it breaks out of the loop (suspends). An exhausted
script ends the recursion, modelling a finite prefix of the run. -/
def poll_vdom (ext : Externals) (hasState : Bool) :
    List PollStep → AppState → AppState × List TraceEv
  | [], s => (s, [])
  | PollStep.pending :: _, s =>
      (s, provide_vdom_contexts hasState ++ [TraceEv.pollEngine, TraceEv.suspend])
  | PollStep.ready ev muts :: rest, s =>
      let r := apply_vdom_changes ext muts s
      let k := poll_vdom ext hasState rest r.2.1
      (k.1,
        provide_vdom_contexts hasState ++ [TraceEv.pollEngine] ++ evTrace ev
          ++ r.2.2 ++ decisionTrace r.1.1 r.1.2 ++ k.2)

/-- Classifies the events a completed iteration emits strictly between polling
the engine and the next iteration head: everything except context provision,
engine polls and suspension. -/
def innerEv : TraceEv → Bool
  | TraceEv.provideStateCtx => false
  | TraceEv.provideProxyCtx => false
  | TraceEv.pollEngine => false
  | TraceEv.suspend => false
  | _ => true

/-- Scans a trace checking that every engine poll happens under freshly
provided contexts: `provideProxyCtx` — the final step of
`provide_vdom_contexts` — marks the contexts fresh, and polling the engine
requires and consumes that freshness. -/
def ctxFreshScan : Bool → List TraceEv → Bool
  | _, [] => true
  | _, TraceEv.provideProxyCtx :: r => ctxFreshScan true r
  | ok, TraceEv.pollEngine :: r => ok && ctxFreshScan false r
  | ok, _ :: r => ctxFreshScan ok r

/-! Concrete instances used by counterexamples and witnesses. -/

/-- Externals whose differ reports an empty diff and no nodes to update for
every batch, and whose state pass never finds a layout-relevant change — the
documented behaviour on an empty mutation batch. -/
def extEmpty : Externals :=
  { applyMutations := fun _ => ([], []), layoutRelevant := fun _ => false }

/-- Externals whose differ reports node `0` both as to-update and in the diff,
and whose state pass never finds a layout-relevant change. -/
def extOneNode : Externals :=
  { applyMutations := fun _ => ([0], [0]), layoutRelevant := fun _ => false }

/-- An open proxy with no messages sent yet. -/
def openProxy : Proxy := { closed := false, sent := [] }

/-- A proxy whose event loop is gone. -/
def closedProxy : Proxy := { closed := true, sent := [] }

/-- An app state, with the mutation sender present, whose layout notifier is
still `true` from a previous cycle. -/
def stateFlagTrue : AppState :=
  { App.new true openProxy with layout_notifier := true }

/-! Theorems for the claims. -/

/-- Claim C1 (code evaluated at the failing input): when `apply_vdom_changes`
returns `changed = true` and `relayout = false`, the decision in `poll_vdom`
requests a redraw, not a repaint — the `must_relayout || must_repaint`
condition fires, and the `request_rerender` branch is unreachable for every
input. -/
theorem poll_decision_redraws_on_repaint_only :
    poll_render_decision true false = RenderRequest.redraw
    ∧ ∀ r l : Bool, poll_render_decision r l ≠ RenderRequest.rerender := by
  exact ⟨rfl, by decide⟩

/-- Claim C2 counterexample: on a state whose layout notifier is `true`,
applying an empty mutation batch does not leave the flag unchanged — it is
reset to `false`. -/
theorem apply_empty_batch_flag_not_preserved :
    stateFlagTrue.layout_notifier = true
    ∧ (apply_vdom_changes extEmpty [] stateFlagTrue).2.1.layout_notifier = false := by
  exact ⟨rfl, rfl⟩

/-- Claim C2 amended: applying an empty mutation batch (the differ reports no
diff and no nodes to update, and the state pass finds nothing layout-relevant
on no nodes) returns `changed = false` and leaves the layout notifier `false`
— reset at the start of the cycle — rather than preserving its prior value. -/
theorem apply_empty_batch (ext : Externals) (s : AppState)
    (hm : ext.applyMutations [] = ([], []))
    (hl : ext.layoutRelevant [] = false) :
    (apply_vdom_changes ext [] s).1.1 = false
    ∧ (apply_vdom_changes ext [] s).2.1.layout_notifier = false := by
  simp [apply_vdom_changes, hm, hl]

/-- Witness for `apply_empty_batch` at concrete externals and state. -/
theorem apply_empty_batch_witness :
    (apply_vdom_changes extEmpty [] stateFlagTrue).1.1 = false
    ∧ (apply_vdom_changes extEmpty [] stateFlagTrue).2.1.layout_notifier = false :=
  apply_empty_batch extEmpty stateFlagTrue rfl rfl

/-- Claim C3: the `changed` component returned by `apply_vdom_changes` is
`true` exactly when the diff reported by `apply_mutations` is non-empty. -/
theorem apply_vdom_changes_changed_iff_diff_nonempty (ext : Externals)
    (muts : List Mutation) (s : AppState) :
    (apply_vdom_changes ext muts s).1.1 = true
      ↔ (ext.applyMutations muts).2 ≠ [] := by
  simp [apply_vdom_changes]

/-- Claim C4: with the mutation sender present, both `init_vdom` and
`apply_vdom_changes` send exactly one signal on it when the reported diff is
non-empty, and none when it is empty. -/
theorem mutations_sender_signal_count (ext : Externals) (hasState : Bool)
    (muts : List Mutation) (s : AppState) (h : s.mutations_sender = true) :
    (apply_vdom_changes ext muts s).2.1.sent_mut_signals
        = s.sent_mut_signals + (if (ext.applyMutations muts).2.isEmpty then 0 else 1)
    ∧ (init_vdom ext hasState muts s).1.sent_mut_signals
        = s.sent_mut_signals + (if (ext.applyMutations muts).2.isEmpty then 0 else 1) := by
  by_cases hd : (ext.applyMutations muts).2.isEmpty <;>
    simp [apply_vdom_changes, init_vdom, h, hd]

/-- Witness for `mutations_sender_signal_count`: a sender-present state under
externals reporting a one-node diff. -/
theorem mutations_sender_signal_count_witness :
    (App.new true openProxy).mutations_sender = true
    ∧ ((apply_vdom_changes extOneNode [0] (App.new true openProxy)).2.1.sent_mut_signals
        = (App.new true openProxy).sent_mut_signals
          + (if (extOneNode.applyMutations [0]).2.isEmpty then 0 else 1)
      ∧ (init_vdom extOneNode false [0] (App.new true openProxy)).1.sent_mut_signals
        = (App.new true openProxy).sent_mut_signals
          + (if (extOneNode.applyMutations [0]).2.isEmpty then 0 else 1)) :=
  ⟨rfl, mutations_sender_signal_count extOneNode false [0] (App.new true openProxy) rfl⟩

/-- Claim C5: in both `init_vdom` and `apply_vdom_changes`, the side-effect
trace ends with the reset of the layout notifier to `false` immediately
followed by the `update_state` pass — so the flag is reset before the pass —
and consequently the flag after the call equals exactly what the pass found
on the nodes to update, independently of the flag's prior value. -/
theorem flag_reset_before_update_state (ext : Externals) (hasState : Bool)
    (muts : List Mutation) (s : AppState) :
    (∃ pre, (apply_vdom_changes ext muts s).2.2
        = pre ++ [TraceEv.setFlagFalse, TraceEv.updateState])
    ∧ (∃ pre, (init_vdom ext hasState muts s).2
        = pre ++ [TraceEv.setFlagFalse, TraceEv.updateState])
    ∧ (apply_vdom_changes ext muts s).2.1.layout_notifier
        = ext.layoutRelevant (ext.applyMutations muts).1
    ∧ (init_vdom ext hasState muts s).1.layout_notifier
        = ext.layoutRelevant (ext.applyMutations muts).1 := by
  refine ⟨⟨_, rfl⟩, ⟨_, rfl⟩, ?_, ?_⟩ <;> simp [apply_vdom_changes, init_vdom]

/-- Claim C8: invoking the waker built by `winit_waker` appends exactly one
`PollVDOM` message when the event loop is alive and does nothing at all when
the channel is closed; in both cases it returns normally (it is a total
function — the send result is discarded, so no failure propagates). -/
theorem wake_by_ref_only_sends_pollvdom (p : Proxy) :
    wake_by_ref p
      = if p.closed then p
        else { p with sent := p.sent ++ [EventMessage.PollVDOM] } := by
  by_cases h : p.closed <;> simp [wake_by_ref, send_event, h]

/-- Claim C9: on a closed event-loop channel, `request_rerender` panics (the
`unwrap()` of the send result, modelled as `none`), whereas the `PollVDOM`
wake path on the same closed channel returns normally with no effect. -/
theorem request_rerender_panics_on_closed_channel :
    request_rerender closedProxy = none
    ∧ wake_by_ref closedProxy = closedProxy := by
  exact ⟨rfl, rfl⟩

/-- Claim C10: a freshly constructed `App` has an empty events queue, the
default (empty) Layers, an empty viewports collection, the layout notifier
`false`, and no mutation signal sent yet. -/
theorem app_new_initial_state (ms : Bool) (p : Proxy) :
    (App.new ms p).events = []
    ∧ (App.new ms p).layers = defaultLayers
    ∧ defaultLayers = ([] : List NodeId)
    ∧ (App.new ms p).viewports_collection = []
    ∧ (App.new ms p).layout_notifier = false
    ∧ (App.new ms p).sent_mut_signals = 0 := by
  exact ⟨rfl, rfl, rfl, rfl, rfl, rfl⟩

/-! Helper lemmas about the scheduler trace segments. -/

/-- Every event of the event-dispatch arm is an inner event. -/
theorem evTrace_inner (ev : Option Nat) : ∀ e ∈ evTrace ev, innerEv e = true := by
  cases ev with
  | none => intro e he; simp [evTrace] at he
  | some a => intro e he; simp [evTrace] at he; subst he; rfl

/-- Every event traced by `apply_vdom_changes` is an inner event. -/
theorem applyTrace_inner (ext : Externals) (muts : List Mutation) (s : AppState) :
    ∀ e ∈ (apply_vdom_changes ext muts s).2.2, innerEv e = true := by
  intro e he
  have h3 : e = TraceEv.sendMutSignal ∨ e = TraceEv.setFlagFalse ∨ e = TraceEv.updateState := by
    by_cases h1 : (ext.applyMutations muts).2.isEmpty <;>
      by_cases h2 : s.mutations_sender <;>
        simp [apply_vdom_changes, h1, h2] at he <;> tauto
  rcases h3 with rfl | rfl | rfl <;> rfl

/-- Every event of the decision step is an inner event. -/
theorem decisionTrace_inner (r l : Bool) : ∀ e ∈ decisionTrace r l, innerEv e = true := by
  cases r <;> cases l <;> decide

/-- A list of inner events cannot contain a non-inner event. -/
theorem not_mem_of_inner (mid : List TraceEv) (x : TraceEv)
    (h : ∀ e ∈ mid, innerEv e = true) (hx : innerEv x = false) : x ∉ mid := by
  intro hm
  rw [h x hm] at hx
  simp at hx

/-- A list of inner events counts zero occurrences of a non-inner event. -/
theorem count_eq_zero_of_inner (mid : List TraceEv) (x : TraceEv)
    (h : ∀ e ∈ mid, innerEv e = true) (hx : innerEv x = false) : mid.count x = 0 := by
  rw [List.count_eq_zero]
  exact not_mem_of_inner mid x h hx

/-- Events that neither provide the proxy context nor poll the engine are
transparent to the freshness scanner. -/
theorem ctxFreshScan_append (mid t : List TraceEv) :
    ∀ b, TraceEv.provideProxyCtx ∉ mid → TraceEv.pollEngine ∉ mid →
      ctxFreshScan b (mid ++ t) = ctxFreshScan b t := by
  induction mid with
  | nil => intro b _ _; rfl
  | cons e r ih =>
      intro b hp he
      rw [List.mem_cons, not_or] at hp he
      cases e with
      | provideProxyCtx => exact absurd rfl hp.1
      | pollEngine => exact absurd rfl he.1
      | provideStateCtx => simpa [ctxFreshScan] using ih b hp.2 he.2
      | handleEvent => simpa [ctxFreshScan] using ih b hp.2 he.2
      | sendMutSignal => simpa [ctxFreshScan] using ih b hp.2 he.2
      | setFlagFalse => simpa [ctxFreshScan] using ih b hp.2 he.2
      | updateState => simpa [ctxFreshScan] using ih b hp.2 he.2
      | requestRedraw => simpa [ctxFreshScan] using ih b hp.2 he.2
      | requestRerender => simpa [ctxFreshScan] using ih b hp.2 he.2
      | suspend => simpa [ctxFreshScan] using ih b hp.2 he.2

/-- Providing the contexts and then polling the engine satisfies the scanner
regardless of the prior freshness. -/
theorem ctxFreshScan_provide_poll (hasState : Bool) (t : List TraceEv) (b : Bool) :
    ctxFreshScan b (provide_vdom_contexts hasState ++ TraceEv.pollEngine :: t)
      = ctxFreshScan false t := by
  cases hasState <;> simp [provide_vdom_contexts, ctxFreshScan]

/-- `apply_vdom_changes` runs the `update_state` pass exactly once. -/
theorem applyTrace_count_updateState (ext : Externals) (muts : List Mutation) (s : AppState) :
    ((apply_vdom_changes ext muts s).2.2).count TraceEv.updateState = 1 := by
  by_cases h1 : (ext.applyMutations muts).2.isEmpty <;>
    by_cases h2 : s.mutations_sender <;>
      simp [apply_vdom_changes, h1, h2]

/-- The decision step never runs the `update_state` pass. -/
theorem decisionTrace_count_updateState (r l : Bool) :
    (decisionTrace r l).count TraceEv.updateState = 0 := by
  cases r <;> cases l <;> decide

/-- The event-dispatch arm never runs the `update_state` pass. -/
theorem evTrace_count_updateState (ev : Option Nat) :
    (evTrace ev).count TraceEv.updateState = 0 := by
  cases ev <;> rfl

/-- Claim C6: on every iteration of the scheduler loop the shared contexts are
re-provided to the engine before it is polled: the freshness scanner accepts
the whole trace (every `pollEngine` is preceded by a `provideProxyCtx` with
no poll in between), the proxy handle is provided exactly once per engine
poll, and the launch state exactly once per engine poll when configured
(never otherwise). -/
theorem poll_vdom_reprovides_contexts (ext : Externals) (hasState : Bool)
    (script : List PollStep) (s : AppState) :
    ctxFreshScan false (poll_vdom ext hasState script s).2 = true
    ∧ (poll_vdom ext hasState script s).2.count TraceEv.provideProxyCtx
        = (poll_vdom ext hasState script s).2.count TraceEv.pollEngine
    ∧ (poll_vdom ext hasState script s).2.count TraceEv.provideStateCtx
        = (if hasState then (poll_vdom ext hasState script s).2.count TraceEv.pollEngine
           else 0) := by
  induction script generalizing s with
  | nil =>
      cases hasState <;> simp [poll_vdom, ctxFreshScan]
  | cons step rest ih =>
      cases step with
      | pending =>
          cases hasState <;>
            simp [poll_vdom, provide_vdom_contexts, ctxFreshScan, List.count_cons]
      | ready ev muts =>
          obtain ⟨ih1, ih2, ih3⟩ := ih (apply_vdom_changes ext muts s).2.1
          have htr : (poll_vdom ext hasState (PollStep.ready ev muts :: rest) s).2
              = provide_vdom_contexts hasState ++ [TraceEv.pollEngine] ++ evTrace ev
                ++ (apply_vdom_changes ext muts s).2.2
                ++ decisionTrace (apply_vdom_changes ext muts s).1.1
                    (apply_vdom_changes ext muts s).1.2
                ++ (poll_vdom ext hasState rest (apply_vdom_changes ext muts s).2.1).2 := rfl
          have hz : ∀ x : TraceEv, innerEv x = false →
              (evTrace ev).count x = 0
              ∧ ((apply_vdom_changes ext muts s).2.2).count x = 0
              ∧ (decisionTrace (apply_vdom_changes ext muts s).1.1
                  (apply_vdom_changes ext muts s).1.2).count x = 0 :=
            fun x hx =>
              ⟨count_eq_zero_of_inner _ x (evTrace_inner ev) hx,
               count_eq_zero_of_inner _ x (applyTrace_inner ext muts s) hx,
               count_eq_zero_of_inner _ x
                 (decisionTrace_inner (apply_vdom_changes ext muts s).1.1
                   (apply_vdom_changes ext muts s).1.2) hx⟩
          have hc1 : (provide_vdom_contexts hasState).count TraceEv.provideProxyCtx = 1 := by
            cases hasState <;> rfl
          have hc2 : (provide_vdom_contexts hasState).count TraceEv.pollEngine = 0 := by
            cases hasState <;> rfl
          have hc3 : (provide_vdom_contexts hasState).count TraceEv.provideStateCtx
              = (if hasState then 1 else 0) := by cases hasState <;> rfl
          have hc4 : ([TraceEv.pollEngine]).count TraceEv.provideProxyCtx = 0 := rfl
          have hc5 : ([TraceEv.pollEngine]).count TraceEv.pollEngine = 1 := rfl
          have hc6 : ([TraceEv.pollEngine]).count TraceEv.provideStateCtx = 0 := rfl
          refine ⟨?_, ?_, ?_⟩
          · have a1 := not_mem_of_inner _ TraceEv.provideProxyCtx (evTrace_inner ev) rfl
            have a2 := not_mem_of_inner _ TraceEv.pollEngine (evTrace_inner ev) rfl
            have b1 := not_mem_of_inner _ TraceEv.provideProxyCtx
              (applyTrace_inner ext muts s) rfl
            have b2 := not_mem_of_inner _ TraceEv.pollEngine (applyTrace_inner ext muts s) rfl
            have c1 := not_mem_of_inner _ TraceEv.provideProxyCtx
              (decisionTrace_inner (apply_vdom_changes ext muts s).1.1
                (apply_vdom_changes ext muts s).1.2) rfl
            have c2 := not_mem_of_inner _ TraceEv.pollEngine
              (decisionTrace_inner (apply_vdom_changes ext muts s).1.1
                (apply_vdom_changes ext muts s).1.2) rfl
            rw [htr]
            simp only [List.append_assoc, List.singleton_append, List.cons_append, List.nil_append]
            rw [ctxFreshScan_provide_poll, ctxFreshScan_append _ _ _ a1 a2,
              ctxFreshScan_append _ _ _ b1 b2, ctxFreshScan_append _ _ _ c1 c2]
            exact ih1
          · obtain ⟨z1, z2, z3⟩ := hz TraceEv.provideProxyCtx rfl
            obtain ⟨w1, w2, w3⟩ := hz TraceEv.pollEngine rfl
            rw [htr]
            simp only [List.count_append, z1, z2, z3, w1, w2, w3, hc1, hc2, hc4, hc5, ih2]
          · obtain ⟨z1, z2, z3⟩ := hz TraceEv.provideStateCtx rfl
            obtain ⟨w1, w2, w3⟩ := hz TraceEv.pollEngine rfl
            rw [htr]
            simp only [List.count_append, z1, z2, z3, w1, w2, w3, hc2, hc3, hc5, hc6, ih3]
            cases hasState <;> simp

/-- Claim C7: the scheduler loop yields control exactly when the race polls
`Pending` — the trace ends with a single `suspend` exactly when the script
contains a pending poll, and contains no `suspend` otherwise — and every
completed poll before the first pending one applies the resulting mutations
(one `update_state` pass each) and iterates without suspending. -/
theorem poll_vdom_yields_iff_pending (ext : Externals) (hasState : Bool)
    (script : List PollStep) (s : AppState) :
    (poll_vdom ext hasState script s).2.count TraceEv.updateState
        = (script.takeWhile isReadyStep).length
    ∧ ∃ pre, (poll_vdom ext hasState script s).2
          = pre ++ (if script.any (fun st => !isReadyStep st) then [TraceEv.suspend] else [])
        ∧ TraceEv.suspend ∉ pre := by
  induction script generalizing s with
  | nil =>
      exact ⟨rfl, [], by simp [poll_vdom], by simp⟩
  | cons step rest ih =>
      cases step with
      | pending =>
          refine ⟨?_, provide_vdom_contexts hasState ++ [TraceEv.pollEngine], ?_, ?_⟩
          · cases hasState <;> rfl
          · cases hasState <;> rfl
          · cases hasState <;> decide
      | ready ev muts =>
          obtain ⟨ih1, pre, hpre, hnot⟩ := ih (apply_vdom_changes ext muts s).2.1
          have htr : (poll_vdom ext hasState (PollStep.ready ev muts :: rest) s).2
              = provide_vdom_contexts hasState ++ [TraceEv.pollEngine] ++ evTrace ev
                ++ (apply_vdom_changes ext muts s).2.2
                ++ decisionTrace (apply_vdom_changes ext muts s).1.1
                    (apply_vdom_changes ext muts s).1.2
                ++ (poll_vdom ext hasState rest (apply_vdom_changes ext muts s).2.1).2 := rfl
          constructor
          · have hpp : (provide_vdom_contexts hasState).count TraceEv.updateState = 0 := by
              cases hasState <;> rfl
            rw [htr]
            simp only [List.count_append, hpp, applyTrace_count_updateState,
              decisionTrace_count_updateState, evTrace_count_updateState, ih1]
            show 0 + 0 + 0 + 1 + 0 + (rest.takeWhile isReadyStep).length
              = ((rest.takeWhile isReadyStep).length + 1)
            omega
          · refine ⟨provide_vdom_contexts hasState ++ [TraceEv.pollEngine] ++ evTrace ev
                ++ (apply_vdom_changes ext muts s).2.2
                ++ decisionTrace (apply_vdom_changes ext muts s).1.1
                    (apply_vdom_changes ext muts s).1.2 ++ pre, ?_, ?_⟩
            · rw [htr, hpre]
              simp [List.append_assoc, List.any_cons, isReadyStep]
            · have h1 : TraceEv.suspend ∉ provide_vdom_contexts hasState := by
                cases hasState <;> decide
              have h2 : TraceEv.suspend ∉ [TraceEv.pollEngine] := by decide
              have h3 := not_mem_of_inner _ TraceEv.suspend (evTrace_inner ev) rfl
              have h4 := not_mem_of_inner _ TraceEv.suspend (applyTrace_inner ext muts s) rfl
              have h5 := not_mem_of_inner _ TraceEv.suspend
                (decisionTrace_inner (apply_vdom_changes ext muts s).1.1
                  (apply_vdom_changes ext muts s).1.2) rfl
              simp [List.mem_append, h1, h2, h3, h4, h5, hnot]

end Freya
